import Mathlib

/-!
Weekly-timeline rendering engine of `journal-tdah-streamlit`.

Shallow embedding of the core of `src/streamlit_app.py`: the free-text
time/duration parsers, the derived-metrics calculator (`hours_worked`),
the per-day interval/marker/bandeau rendering (`draw_block`, `draw_med`,
the body of `build_week_plot`), and the Monday-anchored week window
(`week_monday`, `week_days_for`).

Modelling conventions:
* Python floats are modelled as exact rationals (`ℚ`); `float('nan')` is
  modelled by `Option` (`none` = NaN / absent), matching the code's use of
  `np.nan` purely as an "absent" marker that is only ever tested with
  `np.isnan` / `pd.notnull`.
* Python strings are modelled by `String` / `List Char`.  The built-ins
  used by the source (`str.split` on a one-character separator, `int()`,
  `str.replace`, `str.strip`, `str.lower`, truthiness of strings) are
  modelled below on `List Char`.  `int()` is modelled for the forms the
  journal can contain: optional surrounding ASCII whitespace, an optional
  sign, then decimal digits (Python additionally accepts underscore
  digit separators and non-ASCII digits; no claim depends on those).
* Calendar dates are modelled by their Python `date.toordinal()` value
  (an integer); `date.weekday()` is `(ordinal + 6) % 7` with Monday = 0.
-/

/-- Model of Python's `s.split(sep)` for a one-character separator `sep`:
splits at every occurrence, keeping empty parts, so the result always has
one more element than the number of separator occurrences. -/
def splitOnChar (sep : Char) : List Char → List (List Char)
  | [] => [[]]
  | c :: rest =>
    if c = sep then [] :: splitOnChar sep rest
    else
      match splitOnChar sep rest with
      | [] => [[c]]
      | h :: t => (c :: h) :: t

/-- Value of a list of decimal digit characters, most significant first. -/
def digitsToNat (l : List Char) : ℕ :=
  l.foldl (fun acc c => 10 * acc + (c.toNat - 48)) 0

/-- Model of Python's `str.strip()` (with Lean's ASCII whitespace set). -/
def trimWs (l : List Char) : List Char :=
  ((l.dropWhile Char.isWhitespace).reverse.dropWhile Char.isWhitespace).reverse

/-- Unsigned decimal-numeral parse: the digits-only core of `int()`. -/
def pyIntDigits (l : List Char) : Option ℤ :=
  if l ≠ [] ∧ l.all Char.isDigit then some (digitsToNat l) else none

/-- Model of Python's `int(str)`: optional surrounding whitespace, optional
sign, decimal digits; `none` models a raised `ValueError`. -/
def pyIntChars (l : List Char) : Option ℤ :=
  match trimWs l with
  | [] => none
  | c :: rest =>
    if c = '-' then (pyIntDigits rest).map (fun z => -z)
    else if c = '+' then pyIntDigits rest
    else pyIntDigits (c :: rest)

/-- Model of Python's `int(x or 0)` where `x` is a string: an empty string
is falsy and yields `0`; otherwise `int(x)`. -/
def pyIntOrZero (l : List Char) : Option ℤ :=
  if l = [] then some 0 else pyIntChars l

/-- Model of `"min" in s` (substring containment of `"min"`). -/
def containsMin : List Char → Bool
  | 'm' :: 'i' :: 'n' :: _ => true
  | _ :: rest => containsMin rest
  | [] => false

/-- Model of `s.replace("min", "")`: removes every (left-to-right,
non-overlapping) occurrence of the substring `"min"`. -/
def replaceMin : List Char → List Char
  | 'm' :: 'i' :: 'n' :: rest => replaceMin rest
  | c :: rest => c :: replaceMin rest
  | [] => []

/-- Model of `s.split("min")[0]`: the prefix before the first `"min"`. -/
def beforeMin : List Char → List Char
  | 'm' :: 'i' :: 'n' :: _ => []
  | c :: rest => c :: beforeMin rest
  | [] => []

/-- Model of `s.replace("  ", " ")`: each (left-to-right, non-overlapping)
occurrence of two spaces becomes one space. -/
def replaceDoubleSpace : List Char → List Char
  | ' ' :: ' ' :: rest => ' ' :: replaceDoubleSpace rest
  | c :: rest => c :: replaceDoubleSpace rest
  | [] => []

/-- Model of Python's `str.strip(chars)`: removes characters belonging to
`set` from both ends. -/
def pyStripSet (set : List Char) (l : List Char) : List Char :=
  ((l.dropWhile (fun c => set.contains c)).reverse.dropWhile
    (fun c => set.contains c)).reverse

/-- Python's `int(float)` truncates toward zero (T-division of the reduced
numerator by the denominator). -/
def pyTrunc (q : ℚ) : ℤ :=
  Int.tdiv q.num (q.den : ℤ)

/-- Floor of a rational (floor-division of numerator by denominator). -/
def ratFloorZ (q : ℚ) : ℤ :=
  Int.fdiv q.num (q.den : ℤ)

/-- Round half to even at integer precision (the rounding used by Python's
fixed-point string formatting). -/
def rhe (q : ℚ) : ℤ :=
  let f := ratFloorZ q
  if q - (f : ℚ) < 1/2 then f
  else if (1 : ℚ)/2 < q - (f : ℚ) then f + 1
  else if f % 2 = 0 then f else f + 1

/-- Model of Python's `f"{x:.1f}"`. -/
def fmt1 (q : ℚ) : String :=
  let n := rhe (q * 10)
  (if n < 0 then "-" else "") ++ toString (n.natAbs / 10) ++ "." ++
    toString (n.natAbs % 10)

/-- Model of Python's `str.lower()` (ASCII case folding, which is all the
journal's hand-typed time/duration texts exercise). -/
def toLowerList (l : List Char) : List Char := l.map Char.toLower

/-- Model of `str(x).lower() in ["true", "1", "yes"]`, the truthiness test
the source applies to the `travail_aprem` and `sport` fields (which hold
`str(bool)` values such as `"True"`). -/
def truthyB (s : String) : Bool :=
  toLowerList s.data = "true".data || toLowerList s.data = "1".data ||
    toLowerList s.data = "yes".data

/-- Source `hhmm_to_hour` (src/streamlit_app.py:113-122): `'08:30' -> 8.5`,
anything unparseable -> NaN.  Splits on `":"`, converts the first two
parts with `int()`, returns `hh + mm / 60.0`; any exception (missing
second part, non-numeric part) is caught and yields NaN (`none`). -/
def hhmm_to_hour (s : String) : Option ℚ :=
  if s.data = [] then none
  else
    match splitOnChar ':' s.data with
    | p0 :: p1 :: _ =>
      match pyIntChars p0, pyIntChars p1 with
      | some hh, some mm => some ((hh : ℚ) + (mm : ℚ) / 60)
      | _, _ => none
    | _ => none

/-- The `isinstance(hhmm, str)` guard of `hhmm_to_hour`: a non-string
value (e.g. a dataframe NaN, modelled `none`) yields NaN directly. -/
def hhmm_val : Option String → Option ℚ
  | none => none
  | some s => hhmm_to_hour s

/-- Source `parse_duration_hmin` (src/streamlit_app.py:124-140).  Whitespace-only
input -> NaN; otherwise lower-case and delete spaces, then:
if `'h'` occurs, hours are `int(parts[0] or 0)` and minutes are
`int(parts[1].replace("min","") or 0)` when `"min"` occurs in `parts[1]`
and `0` otherwise; else if `"min"` occurs, minutes are
`int(s.replace("min",""))`; any `int()` exception -> NaN; no `'h'` and no
`"min"` -> NaN. -/
def parse_duration_hmin (txt : String) : Option ℚ :=
  if txt.data.all Char.isWhitespace then none
  else
    let s := (toLowerList txt.data).filter (fun c => c != ' ')
    if s.contains 'h' then
      match splitOnChar 'h' s with
      | p0 :: p1 :: _ =>
        match pyIntOrZero p0 with
        | none => none
        | some hh =>
          if containsMin p1 then
            match pyIntOrZero (replaceMin p1) with
            | none => none
            | some mm => some ((hh : ℚ) + (mm : ℚ) / 60)
          else some ((hh : ℚ) + (0 : ℚ) / 60)
      | _ => none
    else if containsMin s then
      match pyIntChars (replaceMin s) with
      | none => none
      | some mm => some ((mm : ℚ) / 60)
    else none

/-- One journal record (one calendar day), with the fields of `COLUMNS`
(src/streamlit_app.py:12-22).  Time-of-day and duration fields hold raw
free text; `travail_aprem` and `sport` hold `str(bool)` text; the columns
coerced by `ensure_columns` with `pd.to_numeric(errors="coerce")` are
modelled `Option ℚ` (`none` = NaN); the dose columns are modelled by the
string `str(value)`, which is all `draw_med` ever uses of them. -/
structure Record where
  date : ℤ
  heure_couche : String := ""
  duree_sommeil : String := ""
  prise_8h : String := ""
  dose_8h : String := ""
  efficacite_matin : Option ℚ := none
  note_matin : String := ""
  effets_matin : String := ""
  prise_13h : String := ""
  dose_13h : String := ""
  efficacite_apresmidi : Option ℚ := none
  note_apresmidi : String := ""
  effets_apresmidi : String := ""
  prise_16h : String := ""
  dose_16h : String := ""
  efficacite_soir : Option ℚ := none
  note_soir : String := ""
  effets_soir : String := ""
  travail_debut : String := ""
  pause_dej : String := ""
  travail_aprem : String := ""
  reprise_aprem : String := ""
  fin_travail : String := ""
  nb_patients : Option ℚ := none
  nouveaux_patients : Option ℚ := none
  sport : String := ""
  type_sport : String := ""
  heure_sport : String := ""
  duree_sport : String := ""
  journee_durete : Option ℚ := none
  commentaire : String := ""
  deriving DecidableEq

/-- Source `hours_worked` (src/streamlit_app.py:142-154): morning span
`pause_dej - travail_debut` when both parse and the order is right, plus
the afternoon span `fin_travail - reprise_aprem` under the same condition
but only when `travail_aprem` is truthy; NaN (`none`) unless the total is
strictly positive. -/
def hours_worked (row : Record) : Option ℚ :=
  let m1 := hhmm_to_hour row.travail_debut
  let m2 := hhmm_to_hour row.pause_dej
  let a1 := hhmm_to_hour row.reprise_aprem
  let a2 := hhmm_to_hour row.fin_travail
  let t1 : ℚ :=
    match m1, m2 with
    | some x, some y => if x < y then y - x else 0
    | _, _ => 0
  let t2 : ℚ :=
    if truthyB row.travail_aprem then
      match a1, a2 with
      | some x, some y => if x < y then y - x else 0
      | _, _ => 0
    else 0
  if 0 < t1 + t2 then some (t1 + t2) else none

/-- Python `date.weekday()` on an ordinal: Monday = 0 .. Sunday = 6. -/
def pyWeekday (d : ℤ) : ℕ := ((d + 6) % 7).toNat

/-- Source `week_monday` (src/streamlit_app.py:106-107):
`d - timedelta(days=d.weekday())`. -/
def week_monday (d : ℤ) : ℤ := d - pyWeekday d

/-- Source `week_days_for` (src/streamlit_app.py:109-111): the 7 consecutive
dates starting at the Monday of the week containing `d`. -/
def week_days_for (d : ℤ) : List ℤ :=
  (List.range 7).map (fun (i : ℕ) => week_monday d + (i : ℤ))

/-- The weekday-abbreviation part of the `strftime("%a %d/%m")` column
header (the `%d/%m` part is a pure calendar rendering of the date, which
the scene keeps as the date itself in `Scene.days`). -/
def weekdayName : ℕ → String
  | 0 => "Mon"
  | 1 => "Tue"
  | 2 => "Wed"
  | 3 => "Thu"
  | 4 => "Fri"
  | 5 => "Sat"
  | _ => "Sun"

/-- Scene primitives produced by one render: interval rectangles (work /
exercise blocks, carrying their start and end hour; the drawing surface
additionally clamps the painted height to at least 0.06), the dose tick
line and tag, and plain text (patient counts and the summary bandeau).
The `rect` label folds `draw_block`'s `if label: ax.text(...)`: a falsy
(empty) label draws no text, modelled as `none`. -/
inductive Prim where
  | rect (day : ℕ) (hStart hEnd : ℚ) (color : String) (label : Option String)
  | line (day : ℕ) (hour : ℚ)
  | medTag (day : ℕ) (hour : ℚ) (txt : String)
  | text (day : ℕ) (y : ℚ) (txt : String)
  deriving DecidableEq, Repr

/-- Source `draw_block` (src/streamlit_app.py:161-170): draws nothing when either
bound is NaN or `h_end <= h_start`; otherwise one rectangle spanning
`[h_start, h_end]`, labelled when the label is truthy. -/
def draw_block (i : ℕ) (h_start h_end : Option ℚ) (color : String)
    (label : Option String) : List Prim :=
  match h_start, h_end with
  | some s, some e =>
    if e ≤ s then []
    else
      [Prim.rect i s e color
        (match label with
         | some l => if l.data = [] then none else some l
         | none => none)]
  | _, _ => []

/-- Source `draw_med` (src/streamlit_app.py:172-182): nothing when the hour is
NaN; otherwise the tick line and the dose tag, labelled `"<dose> mg"`, or
the literal `"dose"` when `str(dose).strip()` is falsy. -/
def draw_med (i : ℕ) (hour : Option ℚ) (dose : String) : List Prim :=
  match hour with
  | none => []
  | some h =>
    [Prim.line i h,
     Prim.medTag i h (if trimWs dose.data = [] then "dose" else dose ++ " mg")]

/-- Work-morning block (src/streamlit_app.py:313-317). -/
def work_morning (i : ℕ) (row : Record) : List Prim :=
  match hhmm_to_hour row.travail_debut, hhmm_to_hour row.pause_dej with
  | some wm, some wl =>
    if wm < wl then draw_block i (some wm) (some wl) "red" (some "Travail matin")
    else []
  | _, _ => []

/-- The `last_end` value after the morning block (NaN unless drawn). -/
def morning_end (row : Record) : Option ℚ :=
  match hhmm_to_hour row.travail_debut, hhmm_to_hour row.pause_dej with
  | some wm, some wl => if wm < wl then some wl else none
  | _, _ => none

/-- Work-afternoon block (src/streamlit_app.py:318-322). -/
def work_afternoon (i : ℕ) (row : Record) : List Prim :=
  if truthyB row.travail_aprem then
    match hhmm_to_hour row.reprise_aprem, hhmm_to_hour row.fin_travail with
    | some wa, some we =>
      if wa < we then draw_block i (some wa) (some we) "red" (some "Travail AM")
      else []
    | _, _ => []
  else []

/-- The afternoon contribution to `last_end` (NaN unless drawn). -/
def afternoon_end (row : Record) : Option ℚ :=
  if truthyB row.travail_aprem then
    match hhmm_to_hour row.reprise_aprem, hhmm_to_hour row.fin_travail with
    | some wa, some we => if wa < we then some we else none
    | _, _ => none
  else none

/-- Value `last_end` after both work blocks (src/streamlit_app.py:314-322):
`max(last_end, we)` when both are present. -/
def last_work_end (row : Record) : Option ℚ :=
  match morning_end row, afternoon_end row with
  | some l, some e => some (max l e)
  | some l, none => some l
  | none, some e => some e
  | none, none => none

/-- Patient-count annotation (src/streamlit_app.py:323-331): only below a
drawn work block; `int(float(x or 0))` raises on NaN (`none`), and the
surrounding `try` then skips the text. -/
def patients_text (i : ℕ) (row : Record) : List Prim :=
  match last_work_end row with
  | none => []
  | some le =>
    match row.nb_patients, row.nouveaux_patients with
    | some p, some n =>
      [Prim.text i (min 23 (le + 3/5))
        ("👥 " ++ toString (pyTrunc p) ++ " (nouveaux: " ++ toString (pyTrunc n) ++ ")")]
    | _, _ => []

/-- The inline exercise-duration parse (src/streamlit_app.py:336-350):
`dur` starts at 1.0 and is reassigned `hh + mm/60` only when the
lower-cased text contains `'h'` or `"min"` and every `int()` succeeds
(an exception rolls the whole `try` back, keeping 1.0).  Minutes after
`'h'` count only when followed by `"min"`. -/
def exercise_duration (row : Record) : ℚ :=
  let ds := toLowerList row.duree_sport.data
  if ds.contains 'h' || containsMin ds then
    match
      (if ds.contains 'h' then
        match splitOnChar 'h' ds with
        | p0 :: p1 :: _ =>
          match pyIntChars (trimWs p0) with
          | some hh =>
            if containsMin p1 then
              match pyIntChars (trimWs (beforeMin p1)) with
              | some mm => some ((hh : ℚ) + (mm : ℚ) / 60)
              | none => none
            else some ((hh : ℚ) + (0 : ℚ) / 60)
          | none => none
        | _ => none
      else
        match pyIntChars (trimWs (beforeMin ds)) with
        | some mm => some ((0 : ℚ) + (mm : ℚ) / 60)
        | none => none)
    with
    | some d => d
    | none => 1
  else 1

/-- Exercise label truncation (src/streamlit_app.py:352-353). -/
def sportLabel (s : String) : String :=
  if 14 < s.data.length then ⟨s.data.take 14 ++ ['…']⟩ else s

/-- Exercise block (src/streamlit_app.py:333-354): drawn only when `sport`
is truthy and the start time parses; the end is `start + dur`. -/
def sport_block (i : ℕ) (row : Record) : List Prim :=
  if truthyB row.sport then
    match hhmm_to_hour row.heure_sport with
    | some starth =>
      draw_block i (some starth) (some (starth + exercise_duration row)) "green"
        (some (sportLabel row.type_sport))
    | none => []
  else []

/-- The three dose markers (src/streamlit_app.py:356-359). -/
def med_prims (i : ℕ) (row : Record) : List Prim :=
  draw_med i (hhmm_to_hour row.prise_8h) row.dose_8h ++
    draw_med i (hhmm_to_hour row.prise_13h) row.dose_13h ++
      draw_med i (hhmm_to_hour row.prise_16h) row.dose_16h

/-- Sleep part of the bandeau (src/streamlit_app.py:362-364). -/
def sleep_txt (row : Record) : String :=
  if (parse_duration_hmin row.duree_sommeil).isSome then "😴 " ++ row.duree_sommeil
  else "😴 n/d"

/-- Worked-hours part of the bandeau (src/streamlit_app.py:365-367). -/
def hw_txt (row : Record) : String :=
  match hours_worked row with
  | some h => "⏱️ " ++ fmt1 h ++ " h"
  | none => "⏱️ 0 h"

/-- Difficulty part of the bandeau (src/streamlit_app.py:368-369). -/
def d_txt (row : Record) : String :=
  match row.journee_durete with
  | some v => "💪 " ++ toString (pyTrunc v) ++ "/10"
  | none => "💪 n/d"

/-- Side-effects concatenation (src/streamlit_app.py:370-373). -/
def ei_line (row : Record) : String :=
  let j := row.effets_matin.data ++ (" | ").data ++ row.effets_apresmidi.data ++
    (" | ").data ++ row.effets_soir.data
  let e1 := pyStripSet [' ', '|'] (replaceDoubleSpace (trimWs j))
  ⟨if 40 < e1.length then e1.take 40 ++ ['…'] else e1⟩

/-- Side-effects bandeau line (src/streamlit_app.py:374). -/
def ei_txt (row : Record) : String :=
  if (ei_line row).data = [] then "⚠️ —" else "⚠️ " ++ ei_line row

/-- Comment truncation (src/streamlit_app.py:376-377). -/
def com_line (row : Record) : String :=
  let c := trimWs row.commentaire.data
  ⟨if 50 < c.length then c.take 50 ++ ['…'] else c⟩

/-- Comment bandeau line (src/streamlit_app.py:378). -/
def com_txt (row : Record) : String :=
  if (com_line row).data = [] then "📝 —" else "📝 " ++ com_line row

/-- The three-line summary bandeau (src/streamlit_app.py:380-384),
anchored at 23.8 with 0.45 spacing. -/
def bandeau (i : ℕ) (row : Record) : List Prim :=
  [Prim.text i (119/5) (sleep_txt row ++ "   " ++ hw_txt row ++ "   " ++ d_txt row),
   Prim.text i (119/5 - 9/20) (ei_txt row),
   Prim.text i (119/5 - 9/10) (com_txt row)]

/-- Everything drawn for one day column with a record, in source order
(src/streamlit_app.py:304-384). -/
def render_day (i : ℕ) (row : Record) : List Prim :=
  work_morning i row ++ work_afternoon i row ++ patients_text i row ++
    sport_block i row ++ med_prims i row ++ bandeau i row

/-- The renderable scene: the 7 column dates, the weekday part of their
headers, and the drawn primitives.  The fixed grid, axis ticks and title
are pure functions of `days` and are not repeated here. -/
structure Scene where
  days : List ℤ
  labels : List String
  prims : List Prim

/-- Source `build_week_plot` (src/streamlit_app.py:290-386): the Monday-anchored
week of `pick`, records filtered to those 7 dates, one day column per
date; a date with no record draws nothing for its column.  The source
additionally sorts the filtered rows by the very date key used for the
per-day lookup, which cannot change which row `.iloc[0]` finds under the
store's at-most-one-record-per-date upsert invariant. -/
def build_week_plot (records : List Record) (pick : ℤ) : Scene :=
  { days := week_days_for pick
    labels := (week_days_for pick).map (fun d => weekdayName (pyWeekday d))
    prims :=
      ((week_days_for pick).enum.map (fun p =>
        match (records.filter
            (fun r => (week_days_for pick).contains r.date)).find?
            (fun r => r.date == p.2) with
        | some row => render_day p.1 row
        | none => [])).flatten }

/-- Spec-worded morning span (§4.2): `(lunch_break_start - start)` when
both parse and `lunch_break_start > start`, else a zero contribution. -/
def morning_span (row : Record) : ℚ :=
  match hhmm_to_hour row.travail_debut, hhmm_to_hour row.pause_dej with
  | some s, some l => if s < l then l - s else 0
  | _, _ => 0

/-- Spec-worded afternoon span (§4.2): counted only when
`worked_afternoon` is truthy, `(end - afternoon_resume)` when both parse
and `end > afternoon_resume`, else a zero contribution. -/
def afternoon_span (row : Record) : ℚ :=
  if truthyB row.travail_aprem then
    match hhmm_to_hour row.reprise_aprem, hhmm_to_hour row.fin_travail with
    | some s, some e => if s < e then e - s else 0
    | _, _ => 0
  else 0

/-- Modelled from the spec: the note cartouche of §4.4 (one per
time-of-day note).  No code in `src/streamlit_app.py` draws note
cartouches — the spec describes them from another revision of the
repository's app file that is not under `src/`.  Per the spec's words:
drawn only if the note text is non-blank; text truncated to 140
characters with an ellipsis marker if longer. -/
def note_cartouche (note : String) : Option String :=
  if note.data.all Char.isWhitespace then none
  else some (if 140 < note.data.length then ⟨note.data.take 140 ++ ['…']⟩ else note)

/-- Modelled from the spec: the three note-cartouche slots of §4.4 with
their fixed anchor hours (morning 10.5, afternoon 15.0, evening 20.5). -/
def cartouches_for (row : Record) : List (ℚ × Option String) :=
  [(21/2, note_cartouche row.note_matin),
   (15, note_cartouche row.note_apresmidi),
   (41/2, note_cartouche row.note_soir)]

/-- A record with every text field empty and every numeric field NaN. -/
def blankRecord : Record := { date := 0 }

/-- Concrete record: worked 09:00-12:30, no afternoon (C7 witness). -/
def recWorkMorning : Record :=
  { blankRecord with date := 8, travail_debut := "09:00", pause_dej := "12:30" }

/-- Concrete record: exercise marked done at 19:00 for "0min". -/
def recSportZero : Record :=
  { blankRecord with
    date := 8
    sport := "True"
    type_sport := "Course"
    heure_sport := "19:00"
    duree_sport := "0min" }

/-- Concrete record: exercise marked done at 19:00 for "45min". -/
def recSportOk : Record :=
  { blankRecord with
    date := 8
    sport := "True"
    type_sport := "Course"
    heure_sport := "19:00"
    duree_sport := "45min" }

theorem splitOnChar_ne_nil (sep : Char) (l : List Char) : splitOnChar sep l ≠ [] := by
  induction l with
  | nil => simp [splitOnChar]
  | cons c rest ih =>
    simp only [splitOnChar]
    by_cases hc : c = sep
    · simp [hc]
    · simp only [if_neg hc]
      rcases h : splitOnChar sep rest with _ | ⟨hd, tl⟩
      · simp
      · simp

theorem splitOnChar_of_not_mem (sep : Char) (l : List Char) (h : sep ∉ l) :
    splitOnChar sep l = [l] := by
  induction l with
  | nil => rfl
  | cons c rest ih =>
    have hc : c ≠ sep := by
      intro e; exact h (by rw [e]; exact List.mem_cons_self _ _)
    have hrest : sep ∉ rest := fun hm => h (List.mem_cons_of_mem _ hm)
    simp only [splitOnChar, if_neg hc, ih hrest]

theorem splitOnChar_append (sep : Char) (a b : List Char) (ha : sep ∉ a) :
    splitOnChar sep (a ++ sep :: b) = a :: splitOnChar sep b := by
  induction a with
  | nil => simp [splitOnChar]
  | cons c a' ih =>
    have hc : c ≠ sep := by
      intro e; exact ha (by rw [e]; exact List.mem_cons_self _ _)
    have ha' : sep ∉ a' := fun hm => ha (List.mem_cons_of_mem _ hm)
    rw [List.cons_append]
    simp only [splitOnChar, if_neg hc]
    rw [ih ha']

theorem digit_not_ws (c : Char) (h : c.isDigit = true) : c.isWhitespace = false := by
  have h1 : c ≠ ' ' := by rintro rfl; exact absurd h (by decide)
  have h2 : c ≠ '\t' := by rintro rfl; exact absurd h (by decide)
  have h3 : c ≠ '\r' := by rintro rfl; exact absurd h (by decide)
  have h4 : c ≠ '\n' := by rintro rfl; exact absurd h (by decide)
  simp [Char.isWhitespace, h1, h2, h3, h4]

theorem dropWhile_ws_of_digits (l : List Char) (h : ∀ c ∈ l, c.isDigit) :
    l.dropWhile Char.isWhitespace = l := by
  cases l with
  | nil => rfl
  | cons c rest =>
    rw [List.dropWhile_cons, digit_not_ws c (h c (List.mem_cons_self _ _))]
    simp

theorem trimWs_of_digits (l : List Char) (h : ∀ c ∈ l, c.isDigit) : trimWs l = l := by
  unfold trimWs
  rw [dropWhile_ws_of_digits l h,
    dropWhile_ws_of_digits l.reverse (fun c hc => h c (List.mem_reverse.mp hc)),
    List.reverse_reverse]

theorem pyIntChars_digits (l : List Char) (h0 : l ≠ []) (h : ∀ c ∈ l, c.isDigit) :
    pyIntChars l = some ((digitsToNat l : ℕ) : ℤ) := by
  unfold pyIntChars
  rw [trimWs_of_digits l h]
  cases l with
  | nil => exact absurd rfl h0
  | cons c rest =>
    have hd : c.isDigit := h c (List.mem_cons_self _ _)
    have hc1 : c ≠ '-' := by rintro rfl; exact absurd hd (by decide)
    have hc2 : c ≠ '+' := by rintro rfl; exact absurd hd (by decide)
    simp only [if_neg hc1, if_neg hc2, pyIntDigits]
    rw [if_pos ⟨List.cons_ne_nil c rest, List.all_eq_true.mpr h⟩]

theorem hhmm_to_hour_split (a b : List Char) (ha : ':' ∉ a) (hb : ':' ∉ b) :
    hhmm_to_hour ⟨a ++ ':' :: b⟩ =
      match pyIntChars a, pyIntChars b with
      | some hh, some mm => some ((hh : ℚ) + (mm : ℚ) / 60)
      | _, _ => none := by
  unfold hhmm_to_hour
  rw [show (String.mk (a ++ ':' :: b)).data = a ++ ':' :: b from rfl,
    if_neg (by simp), splitOnChar_append ':' a b ha, splitOnChar_of_not_mem ':' b hb]

/-- C6: for every well-formed `"HH:MM"` string (two nonempty all-digit
fields around a colon) with `HH < 24` and `MM < 60`, `hhmm_to_hour`
returns exactly `HH + MM/60`; and every malformed input — empty string,
no colon, a field `int()` rejects, or a non-string value — yields absent
(`none`, the model of the caught-exception NaN), never an error. -/
theorem hhmm_to_hour_spec :
    (∀ a b : List Char, a ≠ [] → b ≠ [] →
      (∀ c ∈ a, c.isDigit) → (∀ c ∈ b, c.isDigit) →
      digitsToNat a < 24 → digitsToNat b < 60 →
      hhmm_to_hour ⟨a ++ ':' :: b⟩ =
        some ((digitsToNat a : ℚ) + (digitsToNat b : ℚ) / 60)) ∧
    hhmm_to_hour "" = none ∧
    (∀ l : List Char, ':' ∉ l → hhmm_to_hour ⟨l⟩ = none) ∧
    (∀ a b : List Char, ':' ∉ a → ':' ∉ b →
      (pyIntChars a = none ∨ pyIntChars b = none) →
      hhmm_to_hour ⟨a ++ ':' :: b⟩ = none) ∧
    hhmm_val none = none := by
  refine ⟨?_, rfl, ?_, ?_, rfl⟩
  · intro a b ha0 hb0 ha hb h24 h60
    have hca : ':' ∉ a := fun hm => absurd (ha ':' hm) (by decide)
    have hcb : ':' ∉ b := fun hm => absurd (hb ':' hm) (by decide)
    rw [hhmm_to_hour_split a b hca hcb, pyIntChars_digits a ha0 ha,
      pyIntChars_digits b hb0 hb]
    show some ((((digitsToNat a : ℕ) : ℤ) : ℚ) + (((digitsToNat b : ℕ) : ℤ) : ℚ) / 60) = _
    rw [Int.cast_natCast, Int.cast_natCast]
  · intro l hl
    unfold hhmm_to_hour
    by_cases h0 : (String.mk l).data = []
    · rw [if_pos h0]
    · rw [if_neg h0]
      have e : splitOnChar ':' (String.mk l).data = [l] := splitOnChar_of_not_mem ':' l hl
      rw [e]
  · intro a b ha hb hnone
    rw [hhmm_to_hour_split a b ha hb]
    rcases h3 : pyIntChars a with _ | hh <;> rcases h4 : pyIntChars b with _ | mm <;>
      simp_all

/-- C6 witness: `"08:30"` parses to `8 + 30/60`; `"0830"` (no colon) and
`"ab:30"` (non-numeric hour field) are absent. -/
theorem hhmm_to_hour_spec_witness :
    hhmm_to_hour ⟨['0', '8'] ++ ':' :: ['3', '0']⟩ =
      some ((digitsToNat ['0', '8'] : ℚ) + (digitsToNat ['3', '0'] : ℚ) / 60) ∧
    hhmm_to_hour ⟨['0', '8', '3', '0']⟩ = none ∧
    hhmm_to_hour ⟨['a', 'b'] ++ ':' :: ['3', '0']⟩ = none :=
  ⟨hhmm_to_hour_spec.1 ['0', '8'] ['3', '0'] (by decide) (by decide) (by decide)
      (by decide) (by decide) (by decide),
   hhmm_to_hour_spec.2.2.1 ['0', '8', '3', '0'] (by decide),
   hhmm_to_hour_spec.2.2.2.1 ['a', 'b'] ['3', '0'] (by decide) (by decide)
      (Or.inl (by decide))⟩

/-- C10: the time-of-day parser applies no range validation — whenever the
two fields around the colon are accepted by `int()`, the result is
`HH + MM/60` with no check of `HH < 24` or `MM < 60`; in particular
`"26:90"` yields `27.5`, outside the visible 6-24 canvas. -/
theorem hhmm_no_range_check :
    (∀ (a b : List Char) (hh mm : ℤ), ':' ∉ a → ':' ∉ b →
      pyIntChars a = some hh → pyIntChars b = some mm →
      hhmm_to_hour ⟨a ++ ':' :: b⟩ = some ((hh : ℚ) + (mm : ℚ) / 60)) ∧
    hhmm_to_hour "26:90" = some (55 / 2) := by
  constructor
  · intro a b hh mm ha hb h1 h2
    rw [hhmm_to_hour_split a b ha hb, h1, h2]
  · have e : hhmm_to_hour "26:90" =
        match pyIntChars ['2', '6'], pyIntChars ['9', '0'] with
        | some hh, some mm => some ((hh : ℚ) + (mm : ℚ) / 60)
        | _, _ => none :=
      hhmm_to_hour_split ['2', '6'] ['9', '0'] (by decide) (by decide)
    rw [e, pyIntChars_digits ['2', '6'] (by decide) (by decide),
      pyIntChars_digits ['9', '0'] (by decide) (by decide),
      show digitsToNat ['2', '6'] = 26 from by decide,
      show digitsToNat ['9', '0'] = 90 from by decide]
    show some ((((26 : ℕ) : ℤ) : ℚ) + (((90 : ℕ) : ℤ) : ℚ) / 60) = some (55 / 2)
    norm_num

/-- C10 witness: `"27:99"` (both fields out of range) still parses, to
`27 + 99/60`. -/
theorem hhmm_no_range_check_witness :
    hhmm_to_hour ⟨['2', '7'] ++ ':' :: ['9', '9']⟩ =
      some (((27 : ℤ) : ℚ) + ((99 : ℤ) : ℚ) / 60) :=
  hhmm_no_range_check.1 ['2', '7'] ['9', '9'] 27 99 (by decide) (by decide)
    (by decide) (by decide)

/-- C1: evaluation of the duration parser on the spec's examples.  Three
hold (`"45min"`, `"1h"`, `""`), but `parse_duration_hmin "7h45"` returns
`7`, not the `7.75` required by the claim and by the function's own
docstring (`'7h45' -> 7.75`): minutes after `'h'` are counted only when
followed by the suffix `"min"`, as the final conjunct shows. -/
theorem parse_duration_examples :
    parse_duration_hmin "7h45" = some 7 ∧
    parse_duration_hmin "45min" = some (3 / 4) ∧
    parse_duration_hmin "1h" = some 1 ∧
    parse_duration_hmin "" = none ∧
    parse_duration_hmin "7h45min" = some (31 / 4) := by
  refine ⟨?_, ?_, ?_, rfl, ?_⟩
  · rw [show parse_duration_hmin "7h45" =
        some ((((7 : ℕ) : ℤ) : ℚ) + (0 : ℚ) / 60) from rfl]
    norm_num
  · rw [show parse_duration_hmin "45min" =
        some ((((45 : ℕ) : ℤ) : ℚ) / 60) from rfl]
    norm_num
  · rw [show parse_duration_hmin "1h" =
        some ((((1 : ℕ) : ℤ) : ℚ) + (0 : ℚ) / 60) from rfl]
    norm_num
  · rw [show parse_duration_hmin "7h45min" =
        some ((((7 : ℕ) : ℤ) : ℚ) + (((45 : ℕ) : ℤ) : ℚ) / 60) from rfl]
    norm_num

theorem span_nonneg (a b : Option ℚ) :
    (0 : ℚ) ≤
      (match a, b with
       | some x, some y => if x < y then y - x else 0
       | _, _ => 0) := by
  rcases a with _ | x
  · rcases b with _ | y <;> exact le_refl 0
  · rcases b with _ | y
    · exact le_refl 0
    · show (0 : ℚ) ≤ if x < y then y - x else 0
      by_cases hxy : x < y
      · rw [if_pos hxy]; linarith
      · rw [if_neg hxy]

/-- C3: `hours_worked` is the sum of the two independent spans (morning:
`pause_dej - travail_debut` when both parse in order; afternoon: counted
only when `travail_aprem` is truthy, `fin - reprise` when both parse in
order), each span contributing zero — never a negative amount — when its
ordering check fails, and the result is absent exactly when the total is
zero. -/
theorem hours_worked_spec (row : Record) :
    0 ≤ morning_span row ∧ 0 ≤ afternoon_span row ∧
    hours_worked row =
      (if morning_span row + afternoon_span row = 0 then none
       else some (morning_span row + afternoon_span row)) := by
  have h1 : 0 ≤ morning_span row :=
    span_nonneg (hhmm_to_hour row.travail_debut) (hhmm_to_hour row.pause_dej)
  have h2 : 0 ≤ afternoon_span row := by
    unfold afternoon_span
    split
    · exact span_nonneg _ _
    · exact le_refl 0
  refine ⟨h1, h2, ?_⟩
  have e : hours_worked row =
      (if 0 < morning_span row + afternoon_span row
       then some (morning_span row + afternoon_span row) else none) := rfl
  rw [e]
  rcases eq_or_lt_of_le (add_nonneg h1 h2) with heq | hlt
  · simp [← heq]
  · rw [if_pos hlt, if_neg (ne_of_gt hlt)]

/-- C8: a dose marker is emitted iff the slot's time parsed (`hour` is not
NaN); when drawn it consists of the tick line and a tag labelled
`"<dose> mg"`, except that a dose whose `str()` strips to blank yields
the literal label `"dose"` — and the function is total, so a blank dose
never raises. -/
theorem draw_med_spec :
    (∀ (i : ℕ) (ho : Option ℚ) (dose : String), draw_med i ho dose = [] ↔ ho = none) ∧
    (∀ (i : ℕ) (h : ℚ) (dose : String),
      draw_med i (some h) dose =
        [Prim.line i h,
         Prim.medTag i h (if trimWs dose.data = [] then "dose" else dose ++ " mg")]) := by
  refine ⟨?_, fun i h dose => rfl⟩
  intro i ho dose
  rcases ho with _ | h
  · simp [draw_med]
  · simp [draw_med]

/-- C2 (spec-modelled): a note cartouche is produced iff the note text is
not blank (empty or whitespace-only), and the emitted text is the note
itself when it fits in 140 characters, or its first 140 characters with a
trailing ellipsis otherwise, so the emitted length never exceeds 141. -/
theorem note_cartouche_spec (note : String) :
    (note_cartouche note = none ↔ note.data.all Char.isWhitespace) ∧
    ∀ t, note_cartouche note = some t →
      t.data.length ≤ 141 ∧
      (note.data.length ≤ 140 → t = note) ∧
      (140 < note.data.length → t.data = note.data.take 140 ++ ['…']) := by
  constructor
  · unfold note_cartouche
    by_cases hb : note.data.all Char.isWhitespace
    · rw [if_pos hb]; simp [hb]
    · rw [if_neg hb]; simp [hb]
  · intro t ht
    unfold note_cartouche at ht
    split at ht
    · exact absurd ht (by simp)
    · rw [Option.some.injEq] at ht
      by_cases hl : 140 < note.data.length
      · rw [if_pos hl] at ht
        subst ht
        refine ⟨?_, fun h => absurd h (by omega), fun _ => rfl⟩
        show (note.data.take 140 ++ ['…']).length ≤ 141
        rw [List.length_append, List.length_take]
        simp
      · rw [if_neg hl] at ht
        subst ht
        push_neg at hl
        exact ⟨by omega, fun _ => rfl, fun h => absurd h (by omega)⟩

/-- C2 witness: a short note passes through unchanged; a whitespace-only
note yields no cartouche. -/
theorem note_cartouche_spec_witness :
    note_cartouche "hi" = some "hi" ∧ note_cartouche "  " = none := by
  have e : note_cartouche "hi" = some "hi" := by decide
  exact ⟨((note_cartouche_spec "hi").2 "hi" e).2.1 (by decide) ▸ e,
    ((note_cartouche_spec "  ").1).mpr (by decide)⟩

/-- C9: the renderer is deterministic — identical record sequences and
pivot dates give identical scenes (the embedding is a pure function of
its arguments, as the source reads no state besides them). -/
theorem build_week_plot_deterministic (records1 records2 : List Record)
    (pick1 pick2 : ℤ) (h1 : records1 = records2) (h2 : pick1 = pick2) :
    build_week_plot records1 pick1 = build_week_plot records2 pick2 := by
  rw [h1, h2]

/-- C9 witness. -/
theorem build_week_plot_deterministic_witness :
    build_week_plot [recWorkMorning] 8 = build_week_plot [recWorkMorning] 8 :=
  build_week_plot_deterministic [recWorkMorning] [recWorkMorning] 8 8 rfl rfl

theorem pyWeekday_monday_add (p : ℤ) (k : ℕ) (hk : k < 7) :
    pyWeekday (week_monday p + (k : ℤ)) = k := by
  simp only [pyWeekday, week_monday]
  omega

theorem week_days_for_eq (p : ℤ) :
    week_days_for p =
      [week_monday p, week_monday p + 1, week_monday p + 2, week_monday p + 3,
       week_monday p + 4, week_monday p + 5, week_monday p + 6] := by
  rw [show week_days_for p =
      [week_monday p + ((0 : ℕ) : ℤ), week_monday p + ((1 : ℕ) : ℤ),
       week_monday p + ((2 : ℕ) : ℤ), week_monday p + ((3 : ℕ) : ℤ),
       week_monday p + ((4 : ℕ) : ℤ), week_monday p + ((5 : ℕ) : ℤ),
       week_monday p + ((6 : ℕ) : ℤ)] from rfl]
  norm_num

/-- C5: the rendered week is exactly the Monday-anchored window of the
pivot — the 7 consecutive dates starting at `pick - pick.weekday()` —
whose columns carry the weekday labels Monday through Sunday for every
pivot, and records dated outside those 7 dates contribute nothing to the
scene (filtering them away first yields the identical scene). -/
theorem render_week_window (records : List Record) (p : ℤ) :
    (build_week_plot records p).days =
      [week_monday p, week_monday p + 1, week_monday p + 2, week_monday p + 3,
       week_monday p + 4, week_monday p + 5, week_monday p + 6] ∧
    week_monday p = p - pyWeekday p ∧
    p ∈ (build_week_plot records p).days ∧
    (build_week_plot records p).labels =
      ["Mon", "Tue", "Wed", "Thu", "Fri", "Sat", "Sun"] ∧
    build_week_plot records p =
      build_week_plot
        (records.filter (fun r => (week_days_for p).contains r.date)) p := by
  refine ⟨week_days_for_eq p, rfl, ?_, ?_, ?_⟩
  · show p ∈ week_days_for p
    unfold week_days_for
    refine List.mem_map.mpr ⟨pyWeekday p, List.mem_range.mpr ?_, ?_⟩
    · simp only [pyWeekday]; omega
    · simp only [pyWeekday, week_monday]; omega
  · show (week_days_for p).map (fun d => weekdayName (pyWeekday d)) = _
    rw [show (week_days_for p).map (fun d => weekdayName (pyWeekday d)) =
        [weekdayName (pyWeekday (week_monday p + ((0 : ℕ) : ℤ))),
         weekdayName (pyWeekday (week_monday p + ((1 : ℕ) : ℤ))),
         weekdayName (pyWeekday (week_monday p + ((2 : ℕ) : ℤ))),
         weekdayName (pyWeekday (week_monday p + ((3 : ℕ) : ℤ))),
         weekdayName (pyWeekday (week_monday p + ((4 : ℕ) : ℤ))),
         weekdayName (pyWeekday (week_monday p + ((5 : ℕ) : ℤ))),
         weekdayName (pyWeekday (week_monday p + ((6 : ℕ) : ℤ)))] from rfl]
    rw [pyWeekday_monday_add p 0 (by norm_num), pyWeekday_monday_add p 1 (by norm_num),
      pyWeekday_monday_add p 2 (by norm_num), pyWeekday_monday_add p 3 (by norm_num),
      pyWeekday_monday_add p 4 (by norm_num), pyWeekday_monday_add p 5 (by norm_num),
      pyWeekday_monday_add p 6 (by norm_num)]
    rfl
  · have e : (records.filter (fun r => (week_days_for p).contains r.date)).filter
        (fun r => (week_days_for p).contains r.date) =
        records.filter (fun r => (week_days_for p).contains r.date) := by
      rw [List.filter_filter]
      simp
    unfold build_week_plot
    rw [e]

/-- C4 (amended): the exercise block is emitted iff `exercise.done` is
truthy, the start time parses, and the duration value is positive; its
end is `start + duration`; the duration defaults to 1.0 hour when the
text contains no `'h'` and no `"min"` (and, via the rolled-back `try`,
when an `int()` fails) — but a duration that parses to zero is kept as
zero, giving a zero-length interval that `draw_block` drops, so such an
explicitly marked exercise produces no block. -/
theorem sport_block_spec (i : ℕ) (row : Record) :
    (truthyB row.sport = false → sport_block i row = []) ∧
    (hhmm_to_hour row.heure_sport = none → sport_block i row = []) ∧
    (∀ h : ℚ, truthyB row.sport = true → hhmm_to_hour row.heure_sport = some h →
      sport_block i row =
        (if exercise_duration row ≤ 0 then []
         else
           [Prim.rect i h (h + exercise_duration row) "green"
             (if (sportLabel row.type_sport).data = [] then none
              else some (sportLabel row.type_sport))])) ∧
    ((toLowerList row.duree_sport.data).contains 'h' = false →
      containsMin (toLowerList row.duree_sport.data) = false →
      exercise_duration row = 1) := by
  refine ⟨?_, ?_, ?_, ?_⟩
  · intro h
    unfold sport_block
    simp [h]
  · intro h
    unfold sport_block
    rw [h]
    split <;> rfl
  · intro h htr hst
    unfold sport_block
    rw [if_pos htr, hst]
    show (if h + exercise_duration row ≤ h then [] else _) = _
    by_cases hd : exercise_duration row ≤ 0
    · rw [if_pos (by linarith), if_pos hd]
    · rw [if_neg (by intro hc; exact hd (by linarith)), if_neg hd]
  · intro h1 h2
    unfold exercise_duration
    rw [if_neg (by rw [h1, h2]; decide)]

/-- C4 counterexample: for the record with `sport` done, start `"19:00"`
and duration text `"0min"`, the start parses and the exercise is marked
done, yet no exercise block is emitted — refuting "an explicitly marked
exercise with a parsed start time always produces a visible block". -/
theorem sport_zero_duration_dropped :
    truthyB recSportZero.sport = true ∧
    hhmm_to_hour recSportZero.heure_sport =
      some ((((19 : ℕ) : ℤ) : ℚ) + (((0 : ℕ) : ℤ) : ℚ) / 60) ∧
    sport_block 0 recSportZero = [] := by
  refine ⟨by decide, rfl, ?_⟩
  rw [show sport_block 0 recSportZero =
      draw_block 0 (some ((((19 : ℕ) : ℤ) : ℚ) + (((0 : ℕ) : ℤ) : ℚ) / 60))
        (some (((((19 : ℕ) : ℤ) : ℚ) + (((0 : ℕ) : ℤ) : ℚ) / 60) +
          exercise_duration recSportZero))
        "green" (some (sportLabel recSportZero.type_sport)) from rfl]
  unfold draw_block
  show (if ((((19 : ℕ) : ℤ) : ℚ) + (((0 : ℕ) : ℤ) : ℚ) / 60) +
      exercise_duration recSportZero ≤
      ((((19 : ℕ) : ℤ) : ℚ) + (((0 : ℕ) : ℤ) : ℚ) / 60) then ([] : List Prim)
      else _) = []
  rw [if_pos ?_]
  rw [show exercise_duration recSportZero = (0 : ℚ) + (((0 : ℕ) : ℤ) : ℚ) / 60 from rfl]
  norm_num

/-- C4 witness: with duration text `"45min"` the block is emitted,
spanning `[19, 19 + 45/60]`. -/
theorem sport_block_spec_witness :
    sport_block 0 recSportOk =
      (if exercise_duration recSportOk ≤ 0 then []
       else
         [Prim.rect 0 ((((19 : ℕ) : ℤ) : ℚ) + (((0 : ℕ) : ℤ) : ℚ) / 60)
           (((((19 : ℕ) : ℤ) : ℚ) + (((0 : ℕ) : ℤ) : ℚ) / 60) +
             exercise_duration recSportOk) "green"
           (if (sportLabel recSportOk.type_sport).data = [] then none
            else some (sportLabel recSportOk.type_sport))]) :=
  (sport_block_spec 0 recSportOk).2.2.1
    ((((19 : ℕ) : ℤ) : ℚ) + (((0 : ℕ) : ℤ) : ℚ) / 60) (by decide) rfl

theorem rect_mem_ite_singleton {j i : ℕ} {s e s0 e0 : ℚ} {c col : String}
    {lab labX : Option String}
    (h : Prim.rect j s e c lab ∈
      (if e0 ≤ s0 then [] else [Prim.rect i s0 e0 col labX])) : s < e := by
  by_cases hle : e0 ≤ s0
  · rw [if_pos hle] at h
    exact absurd h (List.not_mem_nil _)
  · rw [if_neg hle] at h
    rw [List.mem_singleton] at h
    injection h with h1 h2 h3 h4 h5
    rw [h2, h3]
    exact lt_of_not_le hle

theorem rect_mem_draw_block {j i : ℕ} {s e : ℚ} {c col : String}
    {lab lab2 : Option String} {hs he : Option ℚ}
    (h : Prim.rect j s e c lab ∈ draw_block i hs he col lab2) : s < e := by
  rcases hs with _ | s0
  · simp [draw_block] at h
  · rcases he with _ | e0
    · simp [draw_block] at h
    · rcases lab2 with _ | l
      · exact rect_mem_ite_singleton h
      · exact rect_mem_ite_singleton h

theorem rect_not_mem_draw_med {j i : ℕ} {s e : ℚ} {c : String}
    {lab : Option String} {ho : Option ℚ} {dose : String} :
    Prim.rect j s e c lab ∉ draw_med i ho dose := by
  rcases ho with _ | hq <;> simp [draw_med]

theorem rect_not_mem_patients {j i : ℕ} {s e : ℚ} {c : String}
    {lab : Option String} {row : Record} :
    Prim.rect j s e c lab ∉ patients_text i row := by
  unfold patients_text
  rcases h1 : last_work_end row with _ | le
  · simp
  · rcases h2 : row.nb_patients with _ | pq
    · simp
    · rcases h3 : row.nouveaux_patients with _ | nq <;> simp

theorem rect_not_mem_bandeau {j i : ℕ} {s e : ℚ} {c : String}
    {lab : Option String} {row : Record} :
    Prim.rect j s e c lab ∉ bandeau i row := by
  simp [bandeau]

theorem rect_mem_work_morning {j i : ℕ} {s e : ℚ} {c : String}
    {lab : Option String} {row : Record}
    (h : Prim.rect j s e c lab ∈ work_morning i row) : s < e := by
  unfold work_morning at h
  rcases h1 : hhmm_to_hour row.travail_debut with _ | wm <;>
    rcases h2 : hhmm_to_hour row.pause_dej with _ | wl <;> rw [h1, h2] at h
  · exact absurd h (List.not_mem_nil _)
  · exact absurd h (List.not_mem_nil _)
  · exact absurd h (List.not_mem_nil _)
  · have h' : Prim.rect j s e c lab ∈
        (if wm < wl then draw_block i (some wm) (some wl) "red" (some "Travail matin")
         else []) := h
    by_cases hlt : wm < wl
    · rw [if_pos hlt] at h'
      exact rect_mem_draw_block h'
    · rw [if_neg hlt] at h'
      exact absurd h' (List.not_mem_nil _)

theorem rect_mem_work_afternoon {j i : ℕ} {s e : ℚ} {c : String}
    {lab : Option String} {row : Record}
    (h : Prim.rect j s e c lab ∈ work_afternoon i row) : s < e := by
  unfold work_afternoon at h
  by_cases ht : truthyB row.travail_aprem = true
  · rw [if_pos ht] at h
    rcases h1 : hhmm_to_hour row.reprise_aprem with _ | wa <;>
      rcases h2 : hhmm_to_hour row.fin_travail with _ | we <;> rw [h1, h2] at h
    · exact absurd h (List.not_mem_nil _)
    · exact absurd h (List.not_mem_nil _)
    · exact absurd h (List.not_mem_nil _)
    · have h' : Prim.rect j s e c lab ∈
          (if wa < we then draw_block i (some wa) (some we) "red" (some "Travail AM")
           else []) := h
      by_cases hlt : wa < we
      · rw [if_pos hlt] at h'
        exact rect_mem_draw_block h'
      · rw [if_neg hlt] at h'
        exact absurd h' (List.not_mem_nil _)
  · rw [if_neg ht] at h
    exact absurd h (List.not_mem_nil _)

theorem rect_mem_sport_block {j i : ℕ} {s e : ℚ} {c : String}
    {lab : Option String} {row : Record}
    (h : Prim.rect j s e c lab ∈ sport_block i row) : s < e := by
  unfold sport_block at h
  by_cases ht : truthyB row.sport = true
  · rw [if_pos ht] at h
    rcases h1 : hhmm_to_hour row.heure_sport with _ | st
    · rw [h1] at h
      exact absurd h (List.not_mem_nil _)
    · rw [h1] at h
      exact rect_mem_draw_block h
  · rw [if_neg ht] at h
    exact absurd h (List.not_mem_nil _)

theorem rect_mem_render_day {j i : ℕ} {s e : ℚ} {c : String}
    {lab : Option String} {row : Record}
    (h : Prim.rect j s e c lab ∈ render_day i row) : s < e := by
  unfold render_day at h
  simp only [List.mem_append] at h
  rcases h with ((((h | h) | h) | h) | h) | h
  · exact rect_mem_work_morning h
  · exact rect_mem_work_afternoon h
  · exact absurd h rect_not_mem_patients
  · exact rect_mem_sport_block h
  · unfold med_prims at h
    simp only [List.mem_append] at h
    rcases h with (h | h) | h <;> exact absurd h rect_not_mem_draw_med
  · exact absurd h rect_not_mem_bandeau

/-- C7: the scene never contains an interval block (work morning, work
afternoon or exercise rectangle) whose end hour is less than or equal to
its start hour — zero- or negative-length intervals produce no rectangle
and no error, for every record collection and every pivot date. -/
theorem scene_no_degenerate_interval (records : List Record) (pick : ℤ)
    (j : ℕ) (s e : ℚ) (c : String) (lab : Option String)
    (h : Prim.rect j s e c lab ∈ (build_week_plot records pick).prims) : s < e := by
  unfold build_week_plot at h
  simp only [List.mem_flatten, List.mem_map] at h
  obtain ⟨l, ⟨pr, hpr, hl⟩, hmem⟩ := h
  cases hfind : (records.filter
      (fun r => (week_days_for pick).contains r.date)).find?
      (fun r => r.date == pr.2) with
  | none =>
    rw [hfind] at hl
    rw [← hl] at hmem
    exact absurd hmem (List.not_mem_nil _)
  | some row =>
    rw [hfind] at hl
    rw [← hl] at hmem
    exact rect_mem_render_day hmem

/-- C7 witness: the scene for one record working 09:00-12:30 contains its
work-morning rectangle, and the theorem instantiated there yields
`9 + 0/60 < 12 + 30/60`. -/
theorem scene_no_degenerate_interval_witness :
    ((((9 : ℕ) : ℤ) : ℚ) + (((0 : ℕ) : ℤ) : ℚ) / 60) <
      ((((12 : ℕ) : ℤ) : ℚ) + (((30 : ℕ) : ℤ) : ℚ) / 60) := by
  have e1 : work_morning 0 recWorkMorning =
      [Prim.rect 0 ((((9 : ℕ) : ℤ) : ℚ) + (((0 : ℕ) : ℤ) : ℚ) / 60)
        ((((12 : ℕ) : ℤ) : ℚ) + (((30 : ℕ) : ℤ) : ℚ) / 60) "red"
        (some "Travail matin")] := by
    rw [show work_morning 0 recWorkMorning =
        (if ((((9 : ℕ) : ℤ) : ℚ) + (((0 : ℕ) : ℤ) : ℚ) / 60) <
            ((((12 : ℕ) : ℤ) : ℚ) + (((30 : ℕ) : ℤ) : ℚ) / 60) then
           draw_block 0 (some ((((9 : ℕ) : ℤ) : ℚ) + (((0 : ℕ) : ℤ) : ℚ) / 60))
             (some ((((12 : ℕ) : ℤ) : ℚ) + (((30 : ℕ) : ℤ) : ℚ) / 60)) "red"
             (some "Travail matin")
         else []) from rfl]
    rw [if_pos (by norm_num)]
    rw [show draw_block 0 (some ((((9 : ℕ) : ℤ) : ℚ) + (((0 : ℕ) : ℤ) : ℚ) / 60))
        (some ((((12 : ℕ) : ℤ) : ℚ) + (((30 : ℕ) : ℤ) : ℚ) / 60)) "red"
        (some "Travail matin") =
        (if ((((12 : ℕ) : ℤ) : ℚ) + (((30 : ℕ) : ℤ) : ℚ) / 60) ≤
            ((((9 : ℕ) : ℤ) : ℚ) + (((0 : ℕ) : ℤ) : ℚ) / 60) then []
         else
           [Prim.rect 0 ((((9 : ℕ) : ℤ) : ℚ) + (((0 : ℕ) : ℤ) : ℚ) / 60)
             ((((12 : ℕ) : ℤ) : ℚ) + (((30 : ℕ) : ℤ) : ℚ) / 60) "red"
             (some "Travail matin")]) from rfl]
    rw [if_neg (by norm_num)]
  apply scene_no_degenerate_interval [recWorkMorning] 8 0 _ _ "red" (some "Travail matin")
  show _ ∈ render_day 0 recWorkMorning ++ ([] : List Prim)
  rw [List.append_nil]
  unfold render_day
  rw [e1]
  exact List.mem_append_left _ (List.mem_append_left _ (List.mem_append_left _
    (List.mem_append_left _ (List.mem_append_left _ (List.mem_singleton_self _)))))
